import Mathlib

/-!
Shallow embedding of the spring-roi-calculator training and inference
pipeline (scripts/neural_network_training_pytorch.py and
scripts/predict_self_consumption.py), together with proofs about it.

Numeric values carried by the dataset (band bounds, battery sizes,
percentages, losses) are embedded as rationals; the claims under study
concern control flow, counting, ordering and exact mapping constants,
none of which depend on floating-point rounding.
-/

/-- A leaf battery entry of the MCS dataset: `{size, pv_generated_percentage}`.
`size` is read with `float(battery['size'])` in the source; here it is a
rational from the start. -/
structure Battery where
  size : ℚ
  pv_generated_percentage : ℚ
  deriving DecidableEq, Repr

/-- A PV band `{pv_min, pv_max, batteries}` nested in a consumption band. -/
structure Band where
  pv_min : ℚ
  pv_max : ℚ
  batteries : List Battery
  deriving DecidableEq, Repr

/-- One element of a group's `consumption_ranges`: the occupancy descriptor
`occupancy.type`, the `annual_consumption.min`/`annual_consumption.max`
bounds (flattened to two fields), and the list of PV bands. -/
structure ConsumptionRange where
  occupancy_type : String
  annual_min : ℚ
  annual_max : ℚ
  bands : List Band
  deriving DecidableEq, Repr

/-- One occupancy group of the dataset (the value under one `group_id` key).
Only `consumption_ranges` is ever read by the training script; the group id
key itself is never used, so a dataset is embedded as a `List McsGroup` in the
dict's iteration order. -/
structure McsGroup where
  consumption_ranges : List ConsumptionRange
  deriving DecidableEq, Repr

/-- One flattened record, with the fields the source builds in
`load_and_flatten_mcs_data`. -/
structure FlatRecord where
  occupancy_type : String
  occupancy_days_raw : ℚ
  occupancy_days_normalized : ℚ
  annual_consumption : ℚ
  pv_generation : ℚ
  battery_size : ℚ
  self_consumption_percentage : ℚ
  deriving DecidableEq, Repr

/-- Auxiliary for Python's substring operator: `containsAux hay pat` is
`pat in hay` on character lists, case-sensitive. -/
def containsAux : List Char → List Char → Bool
  | [], pat => pat.isEmpty
  | h :: t, pat => pat.isPrefixOf (h :: t) || containsAux t pat

/-- Python's `pat in hay` substring test on strings (case-sensitive). -/
def strContains (hay pat : String) : Bool :=
  containsAux hay.toList pat.toList

/-- The descriptor-to-category chain of `get_occupancy_info`: match the
occupancy descriptor case-sensitively against three known substrings,
falling back to `('unknown', 2.5)`. -/
def occLookup (occupancy_type : String) : String × ℚ :=
  if strContains occupancy_type "Home all day" then ("home_all_day", 5)
  else if strContains occupancy_type "half the day" then ("in_half_the_day", 5/2)
  else if strContains occupancy_type "Out during the day" then ("out_during_day", 0)
  else ("unknown", 5/2)

/-- `get_occupancy_info(group_data)` reads
`group_data['consumption_ranges'][0]['occupancy']['type']`; on an empty
`consumption_ranges` the Python indexing raises `IndexError`, embedded as
`none`. -/
def get_occupancy_info (g : McsGroup) : Option (String × ℚ) :=
  match g.consumption_ranges with
  | [] => none
  | first :: _ => some (occLookup first.occupancy_type)

/-- The body of the two inner loops of `load_and_flatten_mcs_data` for one
consumption range: midpoint of the annual-consumption bounds, then one
record per battery of each PV band, with the PV midpoint. -/
def flattenRange (ot : String) (od odn : ℚ) (cr : ConsumptionRange) : List FlatRecord :=
  cr.bands.flatMap (fun band =>
    band.batteries.map (fun battery =>
      { occupancy_type := ot
        occupancy_days_raw := od
        occupancy_days_normalized := odn
        annual_consumption := (cr.annual_min + cr.annual_max) / 2
        pv_generation := (band.pv_min + band.pv_max) / 2
        battery_size := battery.size
        self_consumption_percentage := battery.pv_generated_percentage }))

/-- The per-group part of `load_and_flatten_mcs_data`: occupancy category
and days from the first consumption range (error if that raises), days
normalized by 5 working days, then all records of the group in order. -/
def flattenGroup (g : McsGroup) : Option (List FlatRecord) :=
  match get_occupancy_info g with
  | none => none
  | some (ot, od) => some (g.consumption_ranges.flatMap (flattenRange ot od (od / 5)))

/-- `load_and_flatten_mcs_data`: iterate the groups in order, appending each
group's records; an `IndexError` in any group aborts the whole load. -/
def load_and_flatten_mcs_data : List McsGroup → Option (List FlatRecord)
  | [] => some []
  | g :: rest =>
    match flattenGroup g, load_and_flatten_mcs_data rest with
    | some l, some ls => some (l ++ ls)
    | _, _ => none

/-- Number of leaf battery entries in one PV band. -/
def bandLeafCount (b : Band) : Nat := b.batteries.length

/-- Number of leaf battery entries in one consumption range. -/
def rangeLeafCount (cr : ConsumptionRange) : Nat := (cr.bands.map bandLeafCount).sum

/-- Number of leaf battery entries in one group. -/
def groupLeafCount (g : McsGroup) : Nat := (g.consumption_ranges.map rangeLeafCount).sum

/-- Number of leaf battery entries in a whole dataset. -/
def datasetLeafCount (d : List McsGroup) : Nat := (d.map groupLeafCount).sum

theorem flattenRange_length (ot : String) (od odn : ℚ) (cr : ConsumptionRange) :
    (flattenRange ot od odn cr).length = rangeLeafCount cr := by
  simp only [flattenRange, rangeLeafCount, bandLeafCount, List.length_flatMap,
    Function.comp_def, List.length_map]
  rfl

theorem flattenGroup_length (g : McsGroup) (l : List FlatRecord)
    (h : flattenGroup g = some l) : l.length = groupLeafCount g := by
  unfold flattenGroup at h
  cases hocc : get_occupancy_info g with
  | none => rw [hocc] at h; exact absurd h (by simp)
  | some p =>
    rw [hocc] at h
    obtain ⟨ot, od⟩ := p
    simp only [Option.some.injEq] at h
    subst h
    simp [groupLeafCount, List.length_flatMap, flattenRange_length, Function.comp_def]

/-- C2: flattening is a full expansion — whenever
`load_and_flatten_mcs_data` succeeds, the number of records equals the sum
over all groups, consumption bands and PV bands of the lengths of their
battery-entry lists; each leaf battery entry contributes exactly one
record. -/
theorem flatten_full_expansion (data : List McsGroup) (l : List FlatRecord)
    (h : load_and_flatten_mcs_data data = some l) :
    l.length = datasetLeafCount data := by
  induction data generalizing l with
  | nil =>
    simp only [load_and_flatten_mcs_data, Option.some.injEq] at h
    subst h
    simp [datasetLeafCount]
  | cons g rest ih =>
    cases hg : flattenGroup g with
    | none => simp [load_and_flatten_mcs_data, hg] at h
    | some lg =>
      cases hr : load_and_flatten_mcs_data rest with
      | none => simp [load_and_flatten_mcs_data, hg, hr] at h
      | some lr =>
        simp only [load_and_flatten_mcs_data, hg, hr, Option.some.injEq] at h
        subst h
        simp [datasetLeafCount, flattenGroup_length g lg hg, ih lr hr]

/-- Concrete two-group dataset used to witness `flatten_full_expansion`. -/
def exampleDataC2 : List McsGroup :=
  [⟨[⟨"Home all day all year", 1500, 2000,
       [⟨1000, 2000, [⟨0, 30⟩, ⟨3, 40⟩]⟩, ⟨2000, 3000, [⟨5, 50⟩]⟩]⟩]⟩,
   ⟨[⟨"Out during the day", 2000, 2500, [⟨1000, 2000, [⟨0, 20⟩]⟩]⟩,
     ⟨"whatever", 2500, 3000, [⟨1500, 2500, [⟨0, 25⟩, ⟨5, 45⟩]⟩]⟩]⟩]

theorem flatten_full_expansion_witness :
    ((load_and_flatten_mcs_data exampleDataC2).getD []).length =
      datasetLeafCount exampleDataC2 :=
  flatten_full_expansion exampleDataC2
    ((load_and_flatten_mcs_data exampleDataC2).getD []) rfl

/-- The single-group dataset of the spec's end-to-end example. -/
def exampleGroupC5 : McsGroup :=
  ⟨[⟨"Home all day all year", 3000, 5000, [⟨2000, 4000, [⟨0, 45⟩, ⟨5, 62⟩]⟩]⟩]⟩

/-- C5: the spec's end-to-end example — one group with descriptor
"Home all day all year", one consumption band {3000,5000}, one PV band
{2000,4000} and batteries [{0,45},{5,62}] flattens to exactly the two
records (occupancy normalized 1.0, consumption midpoint 4000, PV midpoint
3000, battery size and percentage as given). -/
theorem single_group_example_flatten :
    load_and_flatten_mcs_data [exampleGroupC5] =
      some [⟨"home_all_day", 5, 1, 4000, 3000, 0, 45⟩,
            ⟨"home_all_day", 5, 1, 4000, 3000, 5, 62⟩] := by
  have h1 : strContains "Home all day all year" "Home all day" = true := by decide
  norm_num [load_and_flatten_mcs_data, exampleGroupC5, flattenGroup,
    get_occupancy_info, occLookup, h1, flattenRange]

/-- C9: a group with an empty `consumption_ranges` makes the whole load
fail (the Python `[0]` indexing raises `IndexError`); the lenient
'unknown' default is never applied and the group is not skipped. -/
theorem empty_ranges_error (data : List McsGroup) (g : McsGroup)
    (hmem : g ∈ data) (hempty : g.consumption_ranges = []) :
    load_and_flatten_mcs_data data = none := by
  induction data with
  | nil => cases hmem
  | cons a rest ih =>
    rcases List.mem_cons.mp hmem with h | h
    · subst h
      have hfg : flattenGroup g = none := by
        simp [flattenGroup, get_occupancy_info, hempty]
      simp [load_and_flatten_mcs_data, hfg]
    · have hrest := ih h
      cases hfa : flattenGroup a <;> simp [load_and_flatten_mcs_data, hfa, hrest]

theorem empty_ranges_error_witness :
    load_and_flatten_mcs_data [⟨[]⟩] = none :=
  empty_ranges_error [⟨[]⟩] ⟨[]⟩ (List.mem_singleton.mpr rfl) rfl

/-- C7: a descriptor matching none of the three case-sensitive substrings
degrades to category 'unknown' with days 2.5 (normalized 0.5), and the
group still produces all of its records. -/
theorem unknown_descriptor_default (desc : String)
    (h1 : strContains desc "Home all day" = false)
    (h2 : strContains desc "half the day" = false)
    (h3 : strContains desc "Out during the day" = false)
    (g : McsGroup) (c : ConsumptionRange) (rest : List ConsumptionRange)
    (hg : g.consumption_ranges = c :: rest) (hc : c.occupancy_type = desc) :
    get_occupancy_info g = some ("unknown", 5/2) ∧
    ∃ l, flattenGroup g = some l ∧ l.length = groupLeafCount g ∧
      ∀ r ∈ l, r.occupancy_type = "unknown" ∧ r.occupancy_days_raw = 5/2 ∧
        r.occupancy_days_normalized = 1/2 := by
  have hocc : get_occupancy_info g = some ("unknown", 5/2) := by
    simp [get_occupancy_info, hg, occLookup, hc, h1, h2, h3]
  refine ⟨hocc, ?_⟩
  have hfg : flattenGroup g =
      some (g.consumption_ranges.flatMap (flattenRange "unknown" (5/2) ((5/2) / 5))) := by
    simp [flattenGroup, hocc]
  refine ⟨_, hfg, flattenGroup_length g _ hfg, ?_⟩
  intro r hr
  simp only [List.mem_flatMap, flattenRange, List.mem_map] at hr
  obtain ⟨cr, _, band, _, battery, _, hrec⟩ := hr
  subst hrec
  refine ⟨rfl, rfl, ?_⟩
  norm_num

/-- A group whose only descriptor is the lowercase "home all day"
(recognized substrings are matched case-sensitively, so it matches none). -/
def exampleGroupC7 : McsGroup :=
  ⟨[⟨"home all day", 1000, 2000, [⟨500, 1500, [⟨0, 33⟩, ⟨4, 44⟩]⟩]⟩]⟩

theorem unknown_descriptor_default_witness :
    get_occupancy_info exampleGroupC7 = some ("unknown", 5/2) ∧
    ∃ l, flattenGroup exampleGroupC7 = some l ∧
      l.length = groupLeafCount exampleGroupC7 ∧
      ∀ r ∈ l, r.occupancy_type = "unknown" ∧ r.occupancy_days_raw = 5/2 ∧
        r.occupancy_days_normalized = 1/2 :=
  unknown_descriptor_default "home all day" (by decide) (by decide) (by decide)
    exampleGroupC7 ⟨"home all day", 1000, 2000, [⟨500, 1500, [⟨0, 33⟩, ⟨4, 44⟩]⟩]⟩
    [] rfl rfl

/-- Two consumption ranges that agree on everything except possibly the
occupancy descriptor. -/
def crEquiv (c1 c2 : ConsumptionRange) : Prop :=
  c1.annual_min = c2.annual_min ∧ c1.annual_max = c2.annual_max ∧ c1.bands = c2.bands

/-- Two groups that differ at most in the occupancy descriptors of
consumption ranges other than the first: ranges agree pairwise on all
fields but the descriptor, and the first ranges agree on the descriptor
too. -/
def groupEquiv (g1 g2 : McsGroup) : Prop :=
  List.Forall₂ crEquiv g1.consumption_ranges g2.consumption_ranges ∧
  g1.consumption_ranges.head?.map ConsumptionRange.occupancy_type =
    g2.consumption_ranges.head?.map ConsumptionRange.occupancy_type

theorem flattenRange_congr (ot : String) (od odn : ℚ) (c1 c2 : ConsumptionRange)
    (h : crEquiv c1 c2) : flattenRange ot od odn c1 = flattenRange ot od odn c2 := by
  obtain ⟨h1, h2, h3⟩ := h
  simp [flattenRange, h1, h2, h3]

theorem flatMap_flattenRange_congr (ot : String) (od odn : ℚ)
    {l1 l2 : List ConsumptionRange} (h : List.Forall₂ crEquiv l1 l2) :
    l1.flatMap (flattenRange ot od odn) = l2.flatMap (flattenRange ot od odn) := by
  induction h with
  | nil => rfl
  | cons hab _ ih =>
    simp only [List.flatMap_cons, ih, flattenRange_congr ot od odn _ _ hab]

theorem flattenGroup_congr (g1 g2 : McsGroup) (h : groupEquiv g1 g2) :
    flattenGroup g1 = flattenGroup g2 := by
  obtain ⟨hall, hhead⟩ := h
  cases g1 with
  | mk l1 =>
    cases g2 with
    | mk l2 =>
      cases hall with
      | nil => rfl
      | cons hab htail =>
        simp only [List.head?_cons] at hhead
        simp only [Option.map_some', Option.some.injEq] at hhead
        unfold flattenGroup get_occupancy_info
        simp only [hhead]
        cases hc : occLookup _ with
        | mk ot od =>
          simp only [Option.some.injEq]
          exact flatMap_flattenRange_congr ot od (od / 5)
            (List.Forall₂.cons hab htail)

/-- C10: a group's occupancy category comes only from the first
consumption range's descriptor — datasets that differ only in the
descriptors of later ranges flatten identically. -/
theorem flatten_first_descriptor_only (d1 d2 : List McsGroup)
    (h : List.Forall₂ groupEquiv d1 d2) :
    load_and_flatten_mcs_data d1 = load_and_flatten_mcs_data d2 := by
  induction h with
  | nil => rfl
  | cons hg _ ih =>
    unfold load_and_flatten_mcs_data
    rw [flattenGroup_congr _ _ hg, ih]

/-- Dataset whose group has a second consumption range with descriptor
"Out during the day". -/
def exampleDataC10a : List McsGroup :=
  [⟨[⟨"Home all day all year", 1000, 2000, [⟨500, 1500, [⟨0, 30⟩]⟩]⟩,
     ⟨"Out during the day", 2000, 3000, [⟨1500, 2500, [⟨5, 50⟩]⟩]⟩]⟩]

/-- Same dataset with the second range's descriptor rewritten to an
arbitrary unrelated text. -/
def exampleDataC10b : List McsGroup :=
  [⟨[⟨"Home all day all year", 1000, 2000, [⟨500, 1500, [⟨0, 30⟩]⟩]⟩,
     ⟨"some other descriptor", 2000, 3000, [⟨1500, 2500, [⟨5, 50⟩]⟩]⟩]⟩]

theorem flatten_first_descriptor_only_witness :
    load_and_flatten_mcs_data exampleDataC10a =
      load_and_flatten_mcs_data exampleDataC10b :=
  flatten_first_descriptor_only exampleDataC10a exampleDataC10b
    (List.Forall₂.cons
      ⟨List.Forall₂.cons ⟨rfl, rfl, rfl⟩
        (List.Forall₂.cons ⟨rfl, rfl, rfl⟩ List.Forall₂.nil), rfl⟩
      List.Forall₂.nil)

/-- The inference predictor's occupancy dict (already normalized to
[0,1]). -/
def occupancy_mapping : List (String × ℚ) :=
  [("home_all_day", 1), ("in_half_the_day", 1/2), ("out_during_day", 0)]

/-- Python's `occupancy_mapping[occupancy_type]` dict access; `KeyError`
is embedded as `none`. -/
def occupancyMappingLookup (occupancy_type : String) : Option ℚ :=
  (occupancy_mapping.find? (fun p => p.1 == occupancy_type)).map Prod.snd

/-- `predict_self_consumption`: occupancy key lookup (KeyError if absent),
then the persisted scaler transform and network forward pass, abstracted
as an arbitrary function `net` of the four raw features (their numerics
are per-training-run floats, irrelevant to the claims proved here). -/
def predict_self_consumption (net : ℚ → ℚ → ℚ → ℚ → ℚ) (occupancy_type : String)
    (annual_consumption pv_generation battery_size : ℚ) : Option ℚ :=
  match occupancyMappingLookup occupancy_type with
  | none => none
  | some occupancy_normalized =>
    some (net occupancy_normalized annual_consumption pv_generation battery_size)

/-- C4: whenever the flattener assigns one of the three recognized
categories, its days/5 derivation agrees exactly with the predictor's
direct lookup for that category. -/
theorem occupancy_mapping_consistent (desc cat : String) (days : ℚ)
    (h : occLookup desc = (cat, days)) (hk : cat ≠ "unknown") :
    occupancyMappingLookup cat = some (days / 5) := by
  unfold occLookup at h
  split at h
  · injection h with hcat hdays
    subst hcat
    subst hdays
    norm_num [occupancyMappingLookup, occupancy_mapping]
  · split at h
    · injection h with hcat hdays
      subst hcat
      subst hdays
      norm_num [occupancyMappingLookup, occupancy_mapping]
      decide
    · split at h
      · injection h with hcat hdays
        subst hcat
        subst hdays
        norm_num [occupancyMappingLookup, occupancy_mapping]
        decide
      · injection h with hcat _
        exact absurd hcat.symm hk

theorem occupancy_mapping_consistent_witness :
    occupancyMappingLookup "home_all_day" = some (5 / 5) :=
  occupancy_mapping_consistent "Home all day all year" "home_all_day" 5 rfl
    (by decide)

/-- C6: an occupancy_type that is none of the three recognized literals
makes the predictor fail with a KeyError (none); no default value is
substituted. -/
theorem predict_unknown_key_error (net : ℚ → ℚ → ℚ → ℚ → ℚ)
    (occupancy_type : String) (a p b : ℚ)
    (h1 : occupancy_type ≠ "home_all_day")
    (h2 : occupancy_type ≠ "in_half_the_day")
    (h3 : occupancy_type ≠ "out_during_day") :
    predict_self_consumption net occupancy_type a p b = none := by
  have e1 : (("home_all_day" : String) == occupancy_type) = false :=
    beq_eq_false_iff_ne.mpr (Ne.symm h1)
  have e2 : (("in_half_the_day" : String) == occupancy_type) = false :=
    beq_eq_false_iff_ne.mpr (Ne.symm h2)
  have e3 : (("out_during_day" : String) == occupancy_type) = false :=
    beq_eq_false_iff_ne.mpr (Ne.symm h3)
  have hl : occupancyMappingLookup occupancy_type = none := by
    simp [occupancyMappingLookup, occupancy_mapping, List.find?, e1, e2, e3]
  simp [predict_self_consumption, hl]

theorem predict_unknown_key_error_witness :
    predict_self_consumption (fun _ _ _ _ => 0) "full_time_remote" 4000 3000 8 =
      none :=
  predict_unknown_key_error (fun _ _ _ _ => 0) "full_time_remote" 4000 3000 8
    (by decide) (by decide) (by decide)

/-- The per-fold score dict `{'fold': fold+1, 'mse': .., 'r2': .., 'mae': ..}`
appended by `cross_validate_model`. -/
structure FoldScore where
  fold : Nat
  mse : ℚ
  r2 : ℚ
  mae : ℚ
  deriving DecidableEq, Repr

/-- The fold loop of `cross_validate_model`: for each of the k fold
indices in order, train and evaluate the fold (abstracted as `evalFold`,
giving that fold's (mse, r2, mae) on its held-out validation part) and
append its score record with a 1-based fold number. -/
def cross_validate_model (evalFold : Nat → ℚ × ℚ × ℚ) (k_folds : Nat) :
    List FoldScore :=
  (List.range k_folds).map (fun i =>
    { fold := i + 1, mse := (evalFold i).1, r2 := (evalFold i).2.1,
      mae := (evalFold i).2.2 })

/-- pandas `Series.mean()`: sum of the entries divided by their count. -/
def pandasMean (l : List ℚ) : ℚ := l.sum / l.length

/-- The headline numbers `main` reports: the mean of each metric column of
the cv_scores dataframe. -/
def mainCVSummary (scores : List FoldScore) : ℚ × ℚ × ℚ :=
  (pandasMean (scores.map FoldScore.r2), pandasMean (scores.map FoldScore.mse),
   pandasMean (scores.map FoldScore.mae))

/-- C8: the headline cross-validation result of each metric is the
unweighted arithmetic mean of the five per-fold values. -/
theorem cv_mean_is_unweighted (evalFold : Nat → ℚ × ℚ × ℚ) :
    mainCVSummary (cross_validate_model evalFold 5) =
      (((evalFold 0).2.1 + (evalFold 1).2.1 + (evalFold 2).2.1 +
          (evalFold 3).2.1 + (evalFold 4).2.1) / 5,
       ((evalFold 0).1 + (evalFold 1).1 + (evalFold 2).1 +
          (evalFold 3).1 + (evalFold 4).1) / 5,
       ((evalFold 0).2.2 + (evalFold 1).2.2 + (evalFold 2).2.2 +
          (evalFold 3).2.2 + (evalFold 4).2.2) / 5) := by
  have hr : List.range 5 = [0, 1, 2, 3, 4] := rfl
  simp only [mainCVSummary, cross_validate_model, pandasMean, hr,
    List.map_cons, List.map_nil, List.sum_cons, List.sum_nil,
    List.length_cons, List.length_nil, Prod.mk.injEq]
  norm_num
  refine ⟨by ring, by ring, by ring⟩

/-- The mutable early-stopping state of `train_model`'s epoch loop:
epochs run so far, `best_val_loss` (`none` = the initial `float('inf')`),
`patience_counter`, the 0-based epoch index whose weights are in
`best_model.pth` (`none` = nothing saved yet), and whether the loop has
broken out. -/
structure ESState where
  executed : Nat
  best : Option ℚ
  counter : Nat
  snap : Option Nat
  stopped : Bool
  deriving DecidableEq, Repr

/-- State before the first epoch. -/
def esInit : ESState := ⟨0, none, 0, none, false⟩

/-- The `val_loss < best_val_loss` test (strictly-less-than; the initial
best is infinity, so the first epoch always improves). -/
def esImproved (best : Option ℚ) (l : ℚ) : Bool :=
  match best with
  | none => true
  | some b => decide (l < b)

/-- One epoch of `train_model`'s loop as seen by its early-stopping state:
on improvement update the best, reset the counter and save the snapshot,
otherwise increment the counter; then break once the counter has reached
`patience`. Epochs after the break never execute (the state freezes). -/
def esStep (patience : Nat) (s : ESState) (l : ℚ) : ESState :=
  if s.stopped then s
  else
    let impr := esImproved s.best l
    ⟨s.executed + 1,
     if impr then some l else s.best,
     if impr then 0 else s.counter + 1,
     if impr then some s.executed else s.snap,
     decide (patience ≤ if impr then 0 else s.counter + 1)⟩

/-- Run the epoch loop from a given state over a list of per-epoch
validation losses. -/
def esRunFrom (patience : Nat) (s : ESState) (losses : List ℚ) : ESState :=
  losses.foldl (esStep patience) s

/-- `train_model` on an abstract validation-loss sequence (one entry per
potential epoch, so `losses.length` is `num_epochs`): the final
early-stopping state. `executed` counts the epochs actually run (the loop
stops during epoch `executed - 1`, 0-based) and `snap` is the epoch whose
weights the final `load_state_dict('best_model.pth')` restores. -/
def train_model (losses : List ℚ) (patience : Nat) : ESState :=
  esRunFrom patience esInit losses

theorem esStep_stopped (p : Nat) (s : ESState) (l : ℚ) (h : s.stopped = true) :
    esStep p s l = s := by
  simp [esStep, h]

theorem esRunFrom_stopped (p : Nat) (s : ESState) (ls : List ℚ)
    (h : s.stopped = true) : esRunFrom p s ls = s := by
  induction ls with
  | nil => rfl
  | cons x t ih =>
    show esRunFrom p (esStep p s x) t = s
    rw [esStep_stopped p s x h]
    exact ih

theorem esRunFrom_append (p : Nat) (s : ESState) (l1 l2 : List ℚ) :
    esRunFrom p s (l1 ++ l2) = esRunFrom p (esRunFrom p s l1) l2 :=
  List.foldl_append _ _ _ _

theorem esRunFrom_singleton (p : Nat) (s : ESState) (x : ℚ) :
    esRunFrom p s [x] = esStep p s x := rfl

theorem esStep_noimp (p : Nat) (v x : ℚ) (e c : Nat) (sn : Option Nat)
    (hx : v ≤ x) :
    esStep p ⟨e, some v, c, sn, false⟩ x =
      ⟨e + 1, some v, c + 1, sn, decide (p ≤ c + 1)⟩ := by
  have himp : esImproved (some v) x = false := by
    simp only [esImproved, decide_eq_false_iff_not, not_lt]
    exact hx
  simp [esStep, himp]

theorem esRunFrom_inv (p : Nat) (ls : List ℚ)
    (h : (esRunFrom p esInit ls).stopped = false) :
    (esRunFrom p esInit ls).executed = ls.length ∧
    (∀ b, (esRunFrom p esInit ls).best = some b → b ∈ ls) ∧
    ((esRunFrom p esInit ls).best = none → ls = []) := by
  induction ls using List.reverseRecOn with
  | nil =>
    refine ⟨rfl, ?_, fun _ => rfl⟩
    intro b hb
    simp [esRunFrom, esInit] at hb
  | append_singleton l x ih =>
    rw [esRunFrom_append, esRunFrom_singleton] at h ⊢
    cases hst : (esRunFrom p esInit l).stopped with
    | true =>
      rw [esStep_stopped p _ x hst] at h
      rw [h] at hst
      cases hst
    | false =>
      obtain ⟨ihe, ihb, ihn⟩ := ih hst
      cases himp : esImproved (esRunFrom p esInit l).best x with
      | true =>
        refine ⟨?_, ?_, ?_⟩
        · simp [esStep, hst, himp, ihe]
        · intro b hb
          simp [esStep, hst, himp] at hb
          simp [hb]
        · intro hb
          simp [esStep, hst, himp] at hb
      | false =>
        refine ⟨?_, ?_, ?_⟩
        · simp [esStep, hst, himp, ihe]
        · intro b hb
          simp [esStep, hst, himp] at hb
          exact List.mem_append_left _ (ihb b hb)
        · intro hb
          simp [esStep, hst, himp] at hb
          cases hbest : (esRunFrom p esInit l).best with
          | none => simp [esImproved, hbest] at himp
          | some b0 => rw [hbest] at hb; cases hb

theorem esRunFrom_flat (p : Nat) (v : ℚ) (m : List ℚ) :
    ∀ (c e : Nat) (sn : Option Nat), (∀ b ∈ m, v ≤ b) → c + m.length < p →
    esRunFrom p ⟨e, some v, c, sn, false⟩ m =
      ⟨e + m.length, some v, c + m.length, sn, false⟩ := by
  induction m with
  | nil =>
    intro c e sn _ _
    rfl
  | cons x t ih =>
    intro c e sn hm hc
    simp only [List.length_cons] at hc
    have hx : v ≤ x := hm x (by simp)
    have hd : decide (p ≤ c + 1) = false := decide_eq_false (by omega)
    show esRunFrom p (esStep p ⟨e, some v, c, sn, false⟩ x) t = _
    rw [esStep_noimp p v x e c sn hx, hd]
    rw [ih (c + 1) (e + 1) sn (fun b hb => hm b (by simp [hb])) (by omega)]
    have h1 : e + 1 + t.length = e + (x :: t).length := by
      simp [List.length_cons]
      omega
    have h2 : c + 1 + t.length = c + (x :: t).length := by
      simp [List.length_cons]
      omega
    rw [h1, h2]

theorem esRunFrom_exhaust (p : Nat) (v : ℚ) (e : Nat) (sn : Option Nat)
    (m : List ℚ) (hm : ∀ b ∈ m, v ≤ b) (hlen : m.length = p) (hp : 0 < p) :
    esRunFrom p ⟨e, some v, 0, sn, false⟩ m = ⟨e + p, some v, p, sn, true⟩ := by
  have hne : m ≠ [] := by
    intro hnil
    rw [hnil] at hlen
    simp at hlen
    omega
  have hdecomp : m.dropLast ++ [m.getLast hne] = m := List.dropLast_append_getLast hne
  have hdl : m.dropLast.length = p - 1 := by
    rw [List.length_dropLast, hlen]
  rw [← hdecomp, esRunFrom_append]
  have hflat := esRunFrom_flat p v m.dropLast 0 e sn
    (fun b hb => hm b (List.dropLast_subset m hb)) (by omega)
  rw [hflat, hdl, esRunFrom_singleton]
  have hlast : v ≤ m.getLast hne := hm _ (List.getLast_mem hne)
  rw [esStep_noimp p v (m.getLast hne) (e + (p - 1)) (0 + (p - 1)) sn hlast]
  have hd : decide (p ≤ 0 + (p - 1) + 1) = true := decide_eq_true (by omega)
  rw [hd]
  have h1 : e + (p - 1) + 1 = e + p := by omega
  have h2 : 0 + (p - 1) + 1 = p := by omega
  rw [h1, h2]

theorem esStep_executed_le (p : Nat) (s : ESState) (l : ℚ) :
    (esStep p s l).executed ≤ s.executed + 1 := by
  unfold esStep
  split
  · omega
  · simp

theorem esRunFrom_executed_le (p : Nat) (ls : List ℚ) :
    ∀ s : ESState, (esRunFrom p s ls).executed ≤ s.executed + ls.length := by
  induction ls with
  | nil =>
    intro s
    simp [esRunFrom]
  | cons x t ih =>
    intro s
    have h1 := ih (esStep p s x)
    have h2 := esStep_executed_le p s x
    have hcons : esRunFrom p s (x :: t) = esRunFrom p (esStep p s x) t := rfl
    rw [hcons]
    simp only [List.length_cons]
    omega

/-- C3: if the training loop is still running when epoch `i` starts, the
epoch-`i` validation loss strictly beats every earlier epoch's loss, and
each of the next `patience` losses fails to beat it (ties count as
non-improvement: the comparison is strictly-less-than), then the loop
breaks during epoch `i + patience` (0-based; exactly `i + patience + 1`
epochs run), the restored snapshot is the one saved at epoch `i`, and in
general the loop never runs past the max-epoch bound `losses.length`. -/
theorem train_model_early_stopping (losses : List ℚ) (patience i : Nat)
    (hp : 0 < patience) (hlen : i + patience < losses.length)
    (hreach : (train_model (losses.take i) patience).stopped = false)
    (himp : ∀ b ∈ losses.take i, losses.getD i 0 < b)
    (hni : ∀ b ∈ (losses.drop (i + 1)).take patience, losses.getD i 0 ≤ b) :
    (train_model losses patience).executed = i + patience + 1 ∧
    (train_model losses patience).snap = some i ∧
    ∀ ls : List ℚ, (train_model ls patience).executed ≤ ls.length := by
  have hi : i < losses.length := by omega
  have hgetD : losses.getD i 0 = losses[i] := List.getD_eq_getElem losses 0 hi
  have hsplit1 : losses.take i ++ losses.drop i = losses :=
    List.take_append_drop i losses
  have hdropi : losses.drop i = losses[i] :: losses.drop (i + 1) :=
    List.drop_eq_getElem_cons hi
  have hsplit2 : (losses.drop (i + 1)).take patience ++
      (losses.drop (i + 1)).drop patience = losses.drop (i + 1) :=
    List.take_append_drop patience (losses.drop (i + 1))
  set s1 := esRunFrom patience esInit (losses.take i) with hs1
  have hreach' : s1.stopped = false := hreach
  obtain ⟨he1, hb1, _⟩ := esRunFrom_inv patience (losses.take i) hreach'
  have htake_len : (losses.take i).length = i := by
    simp [List.length_take]
    omega
  have himp1 : esImproved s1.best losses[i] = true := by
    cases hbest : s1.best with
    | none => simp [esImproved]
    | some b =>
      have hbmem : b ∈ losses.take i := hb1 b hbest
      have hlt := himp b hbmem
      rw [hgetD] at hlt
      simp [esImproved]
      exact hlt
  have hstepi : esStep patience s1 losses[i] =
      ⟨i + 1, some losses[i], 0, some i, false⟩ := by
    have hd : decide (patience ≤ 0) = false := decide_eq_false (by omega)
    simp [esStep, hreach', himp1, hd]
    constructor
    · rw [hs1, he1, htake_len]
    · omega
  have hm : ∀ b ∈ (losses.drop (i + 1)).take patience, losses[i] ≤ b := by
    intro b hb
    have hle := hni b hb
    rwa [hgetD] at hle
  have hmlen : ((losses.drop (i + 1)).take patience).length = patience := by
    simp [List.length_take, List.length_drop]
    omega
  have hexh := esRunFrom_exhaust patience losses[i] (i + 1) (some i)
    ((losses.drop (i + 1)).take patience) hm hmlen hp
  have hrun : esRunFrom patience esInit losses =
      ⟨i + 1 + patience, some losses[i], patience, some i, true⟩ := by
    conv_lhs => rw [← hsplit1]
    rw [esRunFrom_append, ← hs1, hdropi, ← hsplit2]
    rw [show esRunFrom patience s1 (losses[i] ::
        ((losses.drop (i + 1)).take patience ++
          (losses.drop (i + 1)).drop patience)) =
      esRunFrom patience (esStep patience s1 losses[i])
        ((losses.drop (i + 1)).take patience ++
          (losses.drop (i + 1)).drop patience) from rfl]
    rw [hstepi, esRunFrom_append, hexh]
    exact esRunFrom_stopped _ _ _ rfl
  refine ⟨?_, ?_, ?_⟩
  · show (esRunFrom patience esInit losses).executed = i + patience + 1
    rw [hrun]
    show i + 1 + patience = i + patience + 1
    omega
  · show (esRunFrom patience esInit losses).snap = some i
    rw [hrun]
  · intro ls
    have hb := esRunFrom_executed_le patience ls esInit
    simpa [train_model, esRunFrom, esInit] using hb

theorem train_model_early_stopping_witness :
    (train_model [5, 3, 4, 4, 9] 2).executed = 1 + 2 + 1 ∧
    (train_model [5, 3, 4, 4, 9] 2).snap = some 1 ∧
    ∀ ls : List ℚ, (train_model ls 2).executed ≤ ls.length :=
  train_model_early_stopping [5, 3, 4, 4, 9] 2 1 (by decide) (by decide)
    (by decide) (by decide) (by decide)

/-- The feature row `main` builds from one flattened record, in the fixed
`feature_columns` order
`[occupancy_days_normalized, annual_consumption, pv_generation, battery_size]`. -/
def featureVector (r : FlatRecord) : ℚ × ℚ × ℚ × ℚ :=
  (r.occupancy_days_normalized, r.annual_consumption, r.pv_generation,
   r.battery_size)

/-- The per-feature means StandardScaler.fit computes. -/
structure ScalerMeans where
  occupancy : ℚ
  consumption : ℚ
  pv : ℚ
  battery : ℚ
  deriving DecidableEq, Repr

/-- Mean of one feature column. -/
def colMean (xs : List ℚ) : ℚ := xs.sum / xs.length

/-- `StandardScaler.fit` on a list of feature rows: the per-feature means
(standard deviations are computed from the same rows; the means suffice to
exhibit which rows the fit depends on). -/
def standardScalerMeans (rows : List (ℚ × ℚ × ℚ × ℚ)) : ScalerMeans :=
  ⟨colMean (rows.map (fun r => r.1)), colMean (rows.map (fun r => r.2.1)),
   colMean (rows.map (fun r => r.2.2.1)), colMean (rows.map (fun r => r.2.2.2))⟩

/-- The rows `main` fits the scaler on: `scaler.fit_transform(X)` receives
the FULL feature matrix `X` of every flattened record, built before
`train_test_split` is ever called. -/
def mainScalerFitRows (df : List FlatRecord) : List (ℚ × ℚ × ℚ × ℚ) :=
  df.map featureVector

/-- The scaler statistics `main` actually ships: fit on all rows. -/
def mainScalerMeans (df : List FlatRecord) : ScalerMeans :=
  standardScalerMeans (mainScalerFitRows df)

/-- Four records standing for the 80% training split of a five-record
flattened dataset. -/
def exampleTrainC1 : List FlatRecord :=
  [⟨"home_all_day", 5, 1, 3000, 2000, 0, 40⟩,
   ⟨"home_all_day", 5, 1, 3500, 2500, 1, 45⟩,
   ⟨"out_during_day", 0, 0, 4000, 3000, 2, 50⟩,
   ⟨"out_during_day", 0, 0, 4500, 3500, 3, 55⟩]

/-- The record standing for the held-out 20% test split of that dataset. -/
def exampleTestRowC1 : FlatRecord :=
  ⟨"in_half_the_day", 5/2, 1/2, 6000, 5500, 8, 70⟩

/-- The full five-record flattened dataset: training split plus test split. -/
def exampleDfC1 : List FlatRecord := exampleTrainC1 ++ [exampleTestRowC1]

/-- C1 (refuting evidence): `main` fits the scaler on every flattened row
— the fit set is the whole feature matrix, so for any split into train and
test rows the test rows' features are part of the fit (here: the test
row's features belong to the fit rows), and the statistics actually fit
differ from the statistics a training-rows-only fit would produce. -/
theorem main_scaler_fit_leaks_test_rows :
    (∀ df : List FlatRecord, mainScalerFitRows df = df.map featureVector) ∧
    featureVector exampleTestRowC1 ∈ mainScalerFitRows exampleDfC1 ∧
    mainScalerMeans exampleDfC1 ≠
      standardScalerMeans (mainScalerFitRows exampleTrainC1) := by
  refine ⟨fun _ => rfl,
    by simp [mainScalerFitRows, exampleDfC1, exampleTrainC1, exampleTestRowC1], ?_⟩
  intro hcontra
  norm_num [mainScalerMeans, standardScalerMeans, mainScalerFitRows, colMean,
    featureVector, exampleDfC1, exampleTrainC1, exampleTestRowC1,
    ScalerMeans.mk.injEq] at hcontra
